import Mathlib

/-!
Verification development for the photo-gallery server (`src/server.js`).

The HTTP route handlers and the error-handling middleware are embedded from
`src/server.js` (the file contains a current version followed by an older
version of the same server; the current version comes first).  The library
modules the server calls (`lib/photo-manager`, `lib/thumbnailer`,
`lib/validate/*`) are not part of the sources, so they are modelled from the
specification; each such definition is marked `Modelled from the spec:`.
-/

namespace PhotoGallery

/-! ## JavaScript numeric coercions used by the handlers -/

/-- Decimal value of a list of digit characters (most significant first). -/
def decimalValue (l : List Char) : Nat :=
  l.foldl (fun a c => a * 10 + (c.toNat - 48)) 0

/-- JavaScript `parseInt` (radix 10) on a string, as used by the current
`/latest` and page handlers: the longest leading run of decimal digits is
parsed; an empty run gives `NaN`, which the later `Array.prototype.slice`
call treats as `0`, so it is modelled as `0` here. -/
def jsParseInt (s : String) : Nat :=
  decimalValue (s.data.takeWhile Char.isDigit)

/-- JavaScript `ToInteger` coercion applied by `Array.prototype.slice` to a
string argument (old `/latest` handler passes the raw query string to
`slice`): `ToNumber` of the whole string, `NaN` becoming `0`.  Only strings
of decimal digits (and the empty string) are coerced to their decimal value;
anything else is `NaN`, hence `0` at the `slice` call. -/
def jsToInteger (s : String) : Nat :=
  if s.data.all Char.isDigit then decimalValue s.data else 0

/-! ## Validators (`lib/validate/*`) -/

/-- Modelled from the spec: `lib/validate/number` is missing from the
sources.  "`limit` must be a non-negative integer; a non-numeric or negative
input fails with `ValidationError`": a string passes iff it is a non-empty
string of decimal digits (a negative number starts with `-`, which is not a
digit). -/
def validNumber (s : String) : Bool :=
  !s.data.isEmpty && s.data.all Char.isDigit

/-- Modelled from the spec: safe filename characters — "restricted to safe
filename characters, no path separators or traversal segments". -/
def safeFilenameChar (c : Char) : Bool :=
  c.isAlphanum || c == '-' || c == '_' || c == '.'

/-- Modelled from the spec: `lib/validate/photo-filename` is missing from
the sources.  A filename passes iff it is non-empty, consists of safe
filename characters only (so no `/` or `\` path separator), and is not the
traversal segment `.` or `..`. -/
def validPhotoFilename (s : String) : Bool :=
  !s.data.isEmpty && s.data.all safeFilenameChar && !(s == ".") && !(s == "..")

/-- Modelled from the spec: `lib/validate/date-folder` is missing from the
sources.  "`dateKey` format: fixed-length calendar-date string
(e.g., `YYYY-MM-DD`)": exactly ten characters, digits except for dashes at
positions 4 and 7. -/
def validDateFolderName (s : String) : Bool :=
  match s.data with
  | [a, b, c, d, e, f, g, h, i, j] =>
      a.isDigit && b.isDigit && c.isDigit && d.isDigit && e == '-' &&
      f.isDigit && g.isDigit && h == '-' && i.isDigit && j.isDigit
  | _ => false

/-! ## Photo catalog (`lib/photo-manager`) -/

/-- A raw filesystem scan: each date folder name paired with the image
filenames it contains. -/
abbrev Scan := List (String × List String)

/-- A photo is addressed by its (date key, filename) pair. -/
abbrev Picture := String × String

/-- Lexicographic order on character lists, comparing code points: the
empty list first, then by first differing character. -/
def charsLe : List Char → List Char → Bool
  | [], _ => true
  | _ :: _, [] => false
  | x :: as, y :: bs => x.toNat < y.toNat || (x.toNat = y.toNat && charsLe as bs)

/-- Lexicographic order on strings (code-point order). -/
def strLe (a b : String) : Bool := charsLe a.data b.data

/-- Strict lexicographic order on strings. -/
def strLt (a b : String) : Bool := strLe a b && !(a == b)

lemma charsLe_total : ∀ a b, charsLe a b = true ∨ charsLe b a = true := by
  intro a
  induction a with
  | nil => intro b; left; rfl
  | cons x as ih =>
      intro b
      cases b with
      | nil => right; rfl
      | cons y bs =>
          simp only [charsLe, Bool.or_eq_true, Bool.and_eq_true, decide_eq_true_eq]
          rcases Nat.lt_trichotomy x.toNat y.toNat with h | h | h
          · left; left; exact h
          · rcases ih bs with hrec | hrec
            · left; right; exact ⟨h, hrec⟩
            · right; right; exact ⟨h.symm, hrec⟩
          · right; left; exact h

lemma charsLe_trans : ∀ a b c, charsLe a b = true → charsLe b c = true →
    charsLe a c = true := by
  intro a
  induction a with
  | nil => intro b c _ _; rfl
  | cons x as ih =>
      intro b c hab hbc
      cases b with
      | nil => simp [charsLe] at hab
      | cons y bs =>
          cases c with
          | nil => simp [charsLe] at hbc
          | cons z cs =>
              simp only [charsLe, Bool.or_eq_true, Bool.and_eq_true,
                decide_eq_true_eq] at hab hbc ⊢
              rcases hab with hab | ⟨hab, habrec⟩ <;>
                rcases hbc with hbc | ⟨hbc, hbcrec⟩
              · left; omega
              · left; omega
              · left; omega
              · right; exact ⟨by omega, ih bs cs habrec hbcrec⟩

lemma strLe_total (a b : String) : strLe a b = true ∨ strLe b a = true :=
  charsLe_total a.data b.data

lemma strLe_trans {a b c : String} (hab : strLe a b = true)
    (hbc : strLe b c = true) : strLe a c = true :=
  charsLe_trans a.data b.data c.data hab hbc

lemma strLt_of_le_of_ne {a b : String} (hle : strLe a b = true) (hne : a ≠ b) :
    strLt a b = true := by
  unfold strLt
  rw [hle]
  simp [hne]

/-- Modelled from the spec: the date ordering used for display — for the
fixed `YYYY-MM-DD` key format, chronological order coincides with
lexicographic string order, and display is reverse-chronological ("page 1 is
the most recent page"), so folder `a` comes before folder `b` iff
`b`'s key is lexicographically at most `a`'s. -/
def dateAfter (a b : String × List String) : Prop := strLe b.1 a.1 = true

instance : DecidableRel dateAfter := fun a b =>
  inferInstanceAs (Decidable (strLe b.1 a.1 = true))

instance : IsTotal (String × List String) dateAfter :=
  ⟨fun a b => (strLe_total b.1 a.1).imp id id⟩

instance : IsTrans (String × List String) dateAfter :=
  ⟨fun _ _ _ h1 h2 => strLe_trans h2 h1⟩

/-- Ascending chronological order on date folders (for the photo total
order). -/
def dateBefore (a b : String × List String) : Prop := strLe a.1 b.1 = true

instance : DecidableRel dateBefore := fun a b =>
  inferInstanceAs (Decidable (strLe a.1 b.1 = true))

/-- Ascending lexical order on filenames. -/
def fnameLe (a b : String) : Prop := strLe a b = true

instance : DecidableRel fnameLe := fun a b =>
  inferInstanceAs (Decidable (strLe a b = true))

/-- Modelled from the spec: "filters to DateFolders containing ≥1 Photo,
sorts chronologically" (reverse-chronological for display). -/
def datesWithPictures (scan : Scan) : Scan :=
  (scan.filter (fun e => !e.2.isEmpty)).insertionSort dateAfter

/-- Chunking with explicit fuel; `chunkPages` supplies the list length as
fuel, which suffices whenever the page size is positive. -/
def chunkFuel (fuel n : Nat) (l : List α) : List (List α) :=
  match fuel, l with
  | 0, _ => []
  | _, [] => []
  | fuel + 1, l => l.take n :: chunkFuel fuel n (l.drop n)

/-- Modelled from the spec: "groups consecutively into pages of the
configured threshold size". -/
def chunkPages (n : Nat) (l : List α) : List (List α) :=
  chunkFuel l.length n l

/-- Modelled from the spec: `photoManager.getPaginatedDatesWithPictures` is
missing from the sources — the filtered, reverse-chronologically sorted date
folders, grouped into pages of `th` folders each. -/
def getPaginatedDatesWithPictures (th : Nat) (scan : Scan) : List Scan :=
  chunkPages th (datesWithPictures scan)

/-- Modelled from the spec: within a date folder, photos are ordered by
filename (lexical) — "secondarily by filename". -/
def photosOfDate (e : String × List String) : List Picture :=
  (e.2.insertionSort fnameLe).map (fun f => (e.1, f))

/-- Modelled from the spec: the ascending total chronological order of the
whole catalog — "Photos are strictly ordered — primarily by DateFolder
(chronological), secondarily by filename ... forming a single total order
across the whole catalog". -/
def allPhotos (scan : Scan) : List Picture :=
  ((scan.insertionSort dateBefore).map photosOfDate).flatten

/-- Modelled from the spec: `photoManager.getPictures` is missing from the
sources — all photos, most recent first ("reverse-chronological order"). -/
def getPictures (scan : Scan) : List Picture :=
  (allPhotos scan).reverse

/-- A resolved photo with its chronological neighbours. -/
structure PhotoView where
  photo : Picture
  previous : Option Picture
  next : Option Picture
  deriving DecidableEq, Repr

/-- Modelled from the spec: `photoManager.getPicture` is missing from the
sources — "Looks up the Photo; if found, computes `previous` and `next` as
the immediately adjacent Photos in the total chronological order (absent at
the boundaries of the whole collection).  Returns absent (not an error) if
the Photo does not exist." -/
def getPicture (scan : Scan) (d f : String) : Option PhotoView :=
  let all := allPhotos scan
  match all.findIdx? (fun p => p == (d, f)) with
  | none => none
  | some i =>
      some { photo := (d, f)
             previous := if i = 0 then none else all.get? (i - 1)
             next := all.get? (i + 1) }

/-! ## Errors and HTTP responses (`src/server.js`) -/

/-- The error values that can reach the route `.catch` and the error
middleware: `ValidationError` (from `lib/validate`), `ThumbnailError` (from
`lib/thumbnailer`), or any other `Error`; each carries its message. -/
inductive JsError where
  | validationError
  | thumbnailError (msg : String)
  | genericError (msg : String)
  deriving DecidableEq, Repr

/-- The `message` property of an error.  Modelled from the spec for
`ValidationError` (whose constructor is missing from the sources): its
message describes a malformed identifier and in particular is not a
file-open failure message. -/
def JsError.message : JsError → String
  | .validationError => "Invalid identifier or numeric parameter"
  | .thumbnailError m => m
  | .genericError m => m

/-- The successful response bodies the router produces. -/
inductive RouteOk where
  | page (dates : Scan) (currentPage totalPages : Nat)
  | photoView (v : PhotoView)
  | json (latest : List Picture)
  | stream (data : List Nat)
  deriving DecidableEq, Repr

/-- An HTTP response: a rendered/serialised success, `404 not found`,
`500`-style server error with its body, or the fallthrough to
`errorHandler.report` (which sets no response itself). -/
inductive HResp where
  | rendered (ok : RouteOk)
  | notFound
  | serverError (msg : String)
  | reported (e : JsError)
  deriving DecidableEq, Repr

/-- The error-handling middleware at the end of `src/server.js`:
`ValidationError` → 404, `ThumbnailError` → 500 with a fixed body,
anything else → `errorHandler.report`. -/
def middleware : JsError → HResp
  | .validationError => .notFound
  | .thumbnailError _ => .serverError "Failed to generate thumbnail - not an image file?"
  | .genericError m => .reported (.genericError m)

/-! ## `/latest` (current and old handler versions) -/

/-- The slice the current `/latest` handler serves:
`pictures.slice(0, parseInt(defaultValue(req.query.amount, 3)))` — the
default `3` is a number that `parseInt` stringifies back. -/
def latestSelect (pictures : List Picture) (amount : Option String) : List Picture :=
  match amount with
  | none => pictures.take (jsParseInt (toString 3))
  | some s => pictures.take (jsParseInt s)

/-- The slice the old `/latest` handler (second half of `src/server.js`)
serves: `pictures.slice(0, defaultValue(req.query.amount, 3))` — a raw
query string is coerced by `slice` itself via `ToInteger`. -/
def latestSelectOld (pictures : List Picture) (amount : Option String) : List Picture :=
  match amount with
  | none => pictures.take 3
  | some s => pictures.take (jsToInteger s)

/-- The current `/latest` route: an optional `amount` query parameter is
validated (throwing `ValidationError`, handled by `middleware`) before
`photoManager.getPictures()` runs; the second component counts calls into
the photo manager (filesystem accesses). -/
def latestEndpoint (scan : Scan) (amount : Option String) : HResp × Nat :=
  match amount with
  | some s =>
      if validNumber s then
        (.rendered (.json (latestSelect (getPictures scan) (some s))), 1)
      else (middleware .validationError, 0)
  | none => (.rendered (.json (latestSelect (getPictures scan) none)), 1)

/-! ## `/:page?` -/

/-- Body of the page route after parameter handling: fetches the paginated
dates, then `pageNumber = p - 1` (JS number arithmetic, modelled on `Int`);
out of `[0, dates.length - 1]` → 404, else renders that page. -/
def pageBody (th : Nat) (scan : Scan) (p : Nat) : HResp × Nat :=
  let dates := getPaginatedDatesWithPictures th scan
  let pageNumber : Int := (p : Int) - 1
  if pageNumber < 0 ∨ (dates.length : Int) - 1 < pageNumber then
    (.notFound, 1)
  else
    (.rendered (.page (((dates.get? pageNumber.toNat).getD []) ) p dates.length), 1)

/-- The `/:page?` route: a present `page` parameter is validated (throwing
`ValidationError`) before `getPaginatedDatesWithPictures` runs; an absent
parameter defaults to `1`. -/
def pageEndpoint (th : Nat) (scan : Scan) (page : Option String) : HResp × Nat :=
  match page with
  | some s =>
      if validNumber s then pageBody th scan (jsParseInt s)
      else (middleware .validationError, 0)
  | none => pageBody th scan 1

/-! ## `/view/:date/:filename` -/

/-- The view route: date then filename validation (each throwing
`ValidationError`, handled by `middleware`) before `getPicture` runs; a
`null` photo → 404, else the view is rendered with `previous`/`next`. -/
def viewEndpoint (scan : Scan) (d f : String) : HResp × Nat :=
  if validDateFolderName d then
    if validPhotoFilename f then
      match getPicture scan d f with
      | none => (.notFound, 1)
      | some v => (.rendered (.photoView v), 1)
    else (middleware .validationError, 0)
  else (middleware .validationError, 0)

/-! ## `/thumbnails/:date/:filename` -/

/-- State of the original file a thumbnail would be generated from. -/
inductive FileState where
  | missing
  | unreadable
  | undecodable
  | image (data : List Nat)
  deriving DecidableEq, Repr

/-- Modelled from the spec: `lib/thumbnailer` is missing from the sources.
Sequential get-or-create: a cached thumbnail is returned directly; on a
miss the generator runs against the original — "`ThumbnailError` — original
file missing, unreadable, or undecodable", a missing/unreadable original
failing with the image library's `Unable to open file` message and an
undecodable one with a decode-failure message. -/
def thumbnailer (cache : Option (List Nat)) (fs : String → String → FileState)
    (d f : String) : Except JsError (List Nat) :=
  match cache with
  | some data => .ok data
  | none =>
      match fs d f with
      | .missing => .error (.thumbnailError ("Unable to open file: " ++ d ++ "/" ++ f))
      | .unreadable => .error (.thumbnailError ("Unable to open file: " ++ d ++ "/" ++ f))
      | .undecodable => .error (.thumbnailError "No decode delegate for this image format")
      | .image data => .ok data

/-- The thumbnail route before its `.catch`: validation (date, then
filename) ahead of any call into the thumbnailer; the counter counts
thumbnailer invocations (cache/filesystem accesses). -/
def thumbRoute (cache : Option (List Nat)) (fs : String → String → FileState)
    (d f : String) : Except JsError (List Nat) × Nat :=
  if validDateFolderName d then
    if validPhotoFilename f then (thumbnailer cache fs d f, 1)
    else (.error .validationError, 0)
  else (.error .validationError, 0)

/-- Prefix test on character lists (for the `.catch`'s regexp test). -/
def startsWithChars : List Char → List Char → Bool
  | [], _ => true
  | _ :: _, [] => false
  | p :: ps, c :: cs => p == c && startsWithChars ps cs

/-- Substring test on character lists: does `pat` occur contiguously in the
second argument? -/
def containsChars (pat : List Char) : List Char → Bool
  | [] => startsWithChars pat []
  | c :: cs => startsWithChars pat (c :: cs) || containsChars pat cs

/-- The route-level `.catch` of the thumbnail route: an error whose message
matches `/Unable to open file/` → 404; anything else is rethrown to
`middleware`. -/
def thumbCatch : Except JsError (List Nat) → HResp
  | .ok data => .rendered (.stream data)
  | .error e =>
      if containsChars "Unable to open file".data e.message.data then .notFound
      else middleware e

/-- The full thumbnail endpoint: route body, then `.catch`, then the error
middleware. -/
def thumbEndpoint (cache : Option (List Nat)) (fs : String → String → FileState)
    (d f : String) : HResp × Nat :=
  (thumbCatch (thumbRoute cache fs d f).1, (thumbRoute cache fs d f).2)

/-! ## Thumbnail cache concurrency model

Modelled from the spec: the concurrent behaviour of `getThumbnail`
(`lib/thumbnailer` is missing from the sources).  One fixed uncached key is
considered; `g` is the image data its generation produces (generation is
deterministic, so every invocation for the key yields `g`).  Each of the
`numThreads` concurrent calls is a thread stepping through the states
below; the spec's mutex-guarded in-flight table makes each step
(cache check + registration, generation + publication, waiter wake-up)
atomic with respect to the others, so an execution is an arbitrary
interleaving, i.e. a schedule of thread indices. -/

/-- Phase of one `getThumbnail` call: not yet run; holding the in-flight
registration and generating; awaiting another call's generation; finished
with result `r`. -/
inductive TSt where
  | start
  | generating
  | waiting
  | done (r : Nat)
  deriving DecidableEq, Repr

/-- Shared state for one key: the persisted cache entry, the in-flight
marker, the per-thread phases, and the number of Generator invocations so
far. -/
structure CacheSt where
  numThreads : Nat
  cache : Option Nat
  inflight : Bool
  th : Nat → TSt
  gens : Nat

/-- Pointwise update of the thread-phase map. -/
def updThread (f : Nat → TSt) (i : Nat) (t : TSt) : Nat → TSt :=
  fun j => if j = i then t else f j

/-- One atomic step of thread `i`, following spec §4.2:
cache hit returns it; on a miss with an in-flight generation the call
becomes a waiter; on a miss with no in-flight generation the call
atomically registers and generates; a finishing generation publishes the
cache entry, clears the marker and counts one Generator invocation; a
waiter finishes once the entry is published. -/
def stepThread (g : Nat) (c : CacheSt) (i : Nat) : CacheSt :=
  if i < c.numThreads then
    match c.th i with
    | .start =>
        match c.cache with
        | some d => { c with th := updThread c.th i (.done d) }
        | none =>
            if c.inflight then { c with th := updThread c.th i .waiting }
            else { c with th := updThread c.th i .generating, inflight := true }
    | .generating =>
        { c with th := updThread c.th i (.done g), cache := some g,
                 inflight := false, gens := c.gens + 1 }
    | .waiting =>
        match c.cache with
        | some d => { c with th := updThread c.th i (.done d) }
        | none => c
    | .done _ => c
  else c

/-- Run a schedule (interleaving) from a state. -/
def runSched (g : Nat) (c : CacheSt) (sched : List Nat) : CacheSt :=
  sched.foldl (stepThread g) c

/-- `n` concurrent calls for one key whose thumbnail is not yet cached. -/
def initCache (n : Nat) : CacheSt :=
  { numThreads := n, cache := none, inflight := false,
    th := fun _ => .start, gens := 0 }

/-- The inductive invariant of the cache state machine: at most one thread
generates; none generates while the in-flight marker is clear; the marker
implies the entry is unpublished; the Generator has run exactly once iff
the entry is published (with value `g`); every finished call got `g`, and
then the entry is published. -/
def CacheInv (g : Nat) (c : CacheSt) : Prop :=
  (∀ i j, c.th i = .generating → c.th j = .generating → i = j) ∧
  (c.inflight = false → ∀ i, c.th i ≠ .generating) ∧
  (c.inflight = true → c.cache = none) ∧
  ((c.cache = none ∧ c.gens = 0) ∨ (c.cache = some g ∧ c.gens = 1)) ∧
  (∀ i r, c.th i = .done r → r = g ∧ c.cache = some g)

lemma updThread_eq (f : Nat → TSt) (i : Nat) (t : TSt) :
    updThread f i t i = t := by
  simp [updThread]

lemma updThread_ne {f : Nat → TSt} {i j : Nat} {t : TSt} (h : j ≠ i) :
    updThread f i t j = f j := by
  simp [updThread, h]

lemma cacheInv_step (g : Nat) (c : CacheSt) (i : Nat) (h : CacheInv g c) :
    CacheInv g (stepThread g c i) := by
  obtain ⟨h1, h2, h3, h4, h5⟩ := h
  by_cases hi : i < c.numThreads
  · cases hth : c.th i with
    | start =>
        cases hcache : c.cache with
        | some d =>
            have hdg : d = g := by
              rcases h4 with ⟨hc, _⟩ | ⟨hc, _⟩
              · rw [hcache] at hc; cases hc
              · rw [hcache] at hc; exact Option.some_inj.mp hc
            have hstep : stepThread g c i = { c with th := updThread c.th i (.done d) } := by
              simp [stepThread, hi, hth, hcache]
            rw [hstep]; unfold CacheInv; dsimp only
            refine ⟨?_, ?_, h3, h4, ?_⟩
            · intro a b ha hb
              by_cases hai : a = i
              · subst hai; simp [updThread] at ha
              · by_cases hbi : b = i
                · subst hbi; simp [updThread] at hb
                · simp [updThread, hai, hbi] at ha hb
                  exact h1 a b ha hb
            · intro hin a
              by_cases hai : a = i
              · subst hai; simp [updThread]
              · simp [updThread, hai]
                exact h2 hin a
            · intro a r ha
              by_cases hai : a = i
              · subst hai; simp [updThread] at ha
                subst ha
                exact ⟨hdg, by rw [hcache, hdg]⟩
              · simp [updThread, hai] at ha
                exact h5 a r ha
        | none =>
            cases hin : c.inflight with
            | true =>
                have hstep : stepThread g c i = { c with th := updThread c.th i .waiting } := by
                  simp [stepThread, hi, hth, hcache, hin]
                rw [hstep]; unfold CacheInv; dsimp only
                refine ⟨?_, ?_, h3, h4, ?_⟩
                · intro a b ha hb
                  by_cases hai : a = i
                  · subst hai; simp [updThread] at ha
                  · by_cases hbi : b = i
                    · subst hbi; simp [updThread] at hb
                    · simp [updThread, hai, hbi] at ha hb
                      exact h1 a b ha hb
                · intro hinf a
                  by_cases hai : a = i
                  · subst hai; simp [updThread]
                  · simp [updThread, hai]
                    exact h2 hinf a
                · intro a r ha
                  by_cases hai : a = i
                  · subst hai; simp [updThread] at ha
                  · simp [updThread, hai] at ha
                    rcases h5 a r ha with ⟨_, hc⟩
                    rw [hcache] at hc; cases hc
            | false =>
                have hstep : stepThread g c i =
                    { c with th := updThread c.th i .generating, inflight := true } := by
                  simp [stepThread, hi, hth, hcache, hin]
                rw [hstep]; unfold CacheInv; dsimp only
                refine ⟨?_, ?_, ?_, h4, ?_⟩
                · intro a b ha hb
                  by_cases hai : a = i
                  · by_cases hbi : b = i
                    · rw [hai, hbi]
                    · simp [updThread, hbi] at hb
                      exact absurd hb (h2 hin b)
                  · simp [updThread, hai] at ha
                    exact absurd ha (h2 hin a)
                · intro hinf; cases hinf
                · intro _; exact hcache
                · intro a r ha
                  by_cases hai : a = i
                  · subst hai; simp [updThread] at ha
                  · simp [updThread, hai] at ha
                    rcases h5 a r ha with ⟨_, hc⟩
                    rw [hcache] at hc; cases hc
    | generating =>
        have hinf : c.inflight = true := by
          cases hin : c.inflight
          · exact absurd hth (h2 hin i)
          · rfl
        have hcache : c.cache = none := h3 hinf
        have hgens : c.gens = 0 := by
          rcases h4 with ⟨_, hg⟩ | ⟨hc, _⟩
          · exact hg
          · rw [hcache] at hc; cases hc
        have hstep : stepThread g c i =
            { c with th := updThread c.th i (.done g), cache := some g,
                     inflight := false, gens := c.gens + 1 } := by
          simp [stepThread, hi, hth]
        rw [hstep]; unfold CacheInv; dsimp only
        refine ⟨?_, ?_, ?_, ?_, ?_⟩
        · intro a b ha hb
          by_cases hai : a = i
          · subst hai; simp [updThread] at ha
          · simp [updThread, hai] at ha
            exact absurd (h1 a i ha hth) hai
        · intro _ a
          by_cases hai : a = i
          · subst hai; simp [updThread]
          · simp [updThread, hai]
            intro ha; exact absurd (h1 a i ha hth) hai
        · intro hcontra; cases hcontra
        · right; exact ⟨rfl, by rw [hgens]⟩
        · intro a r ha
          by_cases hai : a = i
          · subst hai; simp [updThread] at ha
            subst ha
            exact ⟨rfl, rfl⟩
          · simp [updThread, hai] at ha
            rcases h5 a r ha with ⟨_, hc⟩
            rw [hcache] at hc; cases hc
    | waiting =>
        cases hcache : c.cache with
        | some d =>
            have hdg : d = g := by
              rcases h4 with ⟨hc, _⟩ | ⟨hc, _⟩
              · rw [hcache] at hc; cases hc
              · rw [hcache] at hc; exact Option.some_inj.mp hc
            have hstep : stepThread g c i = { c with th := updThread c.th i (.done d) } := by
              simp [stepThread, hi, hth, hcache]
            rw [hstep]; unfold CacheInv; dsimp only
            refine ⟨?_, ?_, h3, h4, ?_⟩
            · intro a b ha hb
              by_cases hai : a = i
              · subst hai; simp [updThread] at ha
              · by_cases hbi : b = i
                · subst hbi; simp [updThread] at hb
                · simp [updThread, hai, hbi] at ha hb
                  exact h1 a b ha hb
            · intro hin a
              by_cases hai : a = i
              · subst hai; simp [updThread]
              · simp [updThread, hai]
                exact h2 hin a
            · intro a r ha
              by_cases hai : a = i
              · subst hai; simp [updThread] at ha
                subst ha
                exact ⟨hdg, by rw [hcache, hdg]⟩
              · simp [updThread, hai] at ha
                exact h5 a r ha
        | none =>
            have hstep : stepThread g c i = c := by
              simp [stepThread, hi, hth, hcache]
            rw [hstep]; exact ⟨h1, h2, h3, h4, h5⟩
    | done r =>
        have hstep : stepThread g c i = c := by
          simp [stepThread, hi, hth]
        rw [hstep]; exact ⟨h1, h2, h3, h4, h5⟩
  · have hstep : stepThread g c i = c := by
      simp [stepThread, hi]
    rw [hstep]; exact ⟨h1, h2, h3, h4, h5⟩

lemma cacheInv_run (g : Nat) (sched : List Nat) (c : CacheSt)
    (h : CacheInv g c) : CacheInv g (runSched g c sched) := by
  induction sched generalizing c with
  | nil => exact h
  | cons i rest ih => exact ih (stepThread g c i) (cacheInv_step g c i h)

lemma cacheInv_init (g n : Nat) : CacheInv g (initCache n) := by
  refine ⟨?_, ?_, ?_, ?_, ?_⟩
  · intro a b ha _; cases ha
  · intro _ a ha; cases ha
  · intro hcontra; cases hcontra
  · left; exact ⟨rfl, rfl⟩
  · intro a r ha; cases ha

/-- C1: for a key whose thumbnail is not yet cached, if `n` `getThumbnail`
calls run concurrently during one overlapping window (any interleaving
`sched` of their atomic steps, starting from the uncached initial state),
then once all `n` calls have finished, the Thumbnail Generator was invoked
exactly once, and every call returned successfully with the identical
generated data `g`. -/
theorem c1_concurrent_thumbnail_generated_once (g n : Nat) (sched : List Nat)
    (hn : 0 < n)
    (hdone : ∀ i, i < n → ∃ r, (runSched g (initCache n) sched).th i = TSt.done r) :
    (runSched g (initCache n) sched).gens = 1 ∧
    ∀ i r, (runSched g (initCache n) sched).th i = TSt.done r → r = g := by
  have hInv := cacheInv_run g sched (initCache n) (cacheInv_init g n)
  obtain ⟨h1, h2, h3, h4, h5⟩ := hInv
  obtain ⟨r0, h0⟩ := hdone 0 hn
  obtain ⟨_, hcache⟩ := h5 0 r0 h0
  constructor
  · rcases h4 with ⟨hc, _⟩ | ⟨_, hg⟩
    · rw [hcache] at hc; cases hc
    · exact hg
  · intro i r hr
    exact (h5 i r hr).1

/-- Witness for C1: two concurrent calls interleaved as
register → join-as-waiter → generate-and-publish → waiter-wakes; both
finish, the Generator ran once, both got the generated data `7`. -/
theorem c1_witness :
    (runSched 7 (initCache 2) [0, 1, 0, 1]).gens = 1 ∧
    ∀ i r, (runSched 7 (initCache 2) [0, 1, 0, 1]).th i = TSt.done r → r = 7 :=
  c1_concurrent_thumbnail_generated_once 7 2 [0, 1, 0, 1] (by decide)
    (by
      intro i hi
      match i with
      | 0 => exact ⟨7, rfl⟩
      | 1 => exact ⟨7, rfl⟩
      | k + 2 => omega)

/-! ## Helper lemmas -/

lemma takeWhile_of_all {α : Type} {p : α → Bool} {l : List α}
    (h : l.all p = true) : l.takeWhile p = l := by
  induction l with
  | nil => rfl
  | cons c cs ih =>
      simp only [List.all_cons, Bool.and_eq_true] at h
      simp [List.takeWhile_cons, h.1, ih h.2]

lemma jsParseInt_of_digits {s : String} (h : s.data.all Char.isDigit = true) :
    jsParseInt s = decimalValue s.data := by
  unfold jsParseInt
  rw [takeWhile_of_all h]

lemma jsToInteger_of_digits {s : String} (h : s.data.all Char.isDigit = true) :
    jsToInteger s = decimalValue s.data := by
  unfold jsToInteger
  rw [if_pos h]

lemma jsParseInt_default : jsParseInt (toString 3) = 3 := by decide

lemma startsWithChars_append (p rest : List Char) :
    startsWithChars p (p ++ rest) = true := by
  induction p with
  | nil => rfl
  | cons c cs ih => simp [startsWithChars, ih]

lemma containsChars_of_startsWith {pat l : List Char}
    (h : startsWithChars pat l = true) : containsChars pat l = true := by
  cases l with
  | nil => exact h
  | cons c cs => simp [containsChars, h]

/-- The `/Unable to open file/` test succeeds on the thumbnailer's
missing/unreadable-original message, whatever the key was. -/
lemma unable_match (d f : String) :
    containsChars "Unable to open file".data
      ("Unable to open file: " ++ d ++ "/" ++ f).data = true := by
  apply containsChars_of_startsWith
  have hdata : ("Unable to open file: " ++ d ++ "/" ++ f).data =
      "Unable to open file".data ++ (": ".data ++ d.data ++ "/".data ++ f.data) := by
    simp [String.data_append]
  rw [hdata]
  exact startsWithChars_append _ _

/-! ## C10: old vs. new `/latest` slice -/

/-- C10: for every pictures list and an `amount` that is absent or a
decimal-digit string accepted by the number validator, the old handler
(raw string passed to `slice`, coerced by `ToInteger`) and the new handler
(`parseInt` after validation) select the same slice. -/
theorem c10_latest_old_new_same_slice (pictures : List Picture)
    (amount : Option String)
    (h : amount = none ∨ ∃ s, amount = some s ∧ validNumber s = true) :
    latestSelectOld pictures amount = latestSelect pictures amount := by
  rcases h with rfl | ⟨s, rfl, hs⟩
  · unfold latestSelectOld latestSelect
    dsimp only
    rw [jsParseInt_default]
  · unfold latestSelectOld latestSelect
    dsimp only
    have hdig : s.data.all Char.isDigit = true := by
      unfold validNumber at hs
      exact (Bool.and_eq_true _ _ |>.mp hs).2
    rw [jsToInteger_of_digits hdig, jsParseInt_of_digits hdig]

/-- Witness for C10 at a concrete pictures list and amount. -/
theorem c10_witness :
    latestSelectOld [("2023-01-01", "a.jpg"), ("2023-01-02", "b.jpg")] (some "1") =
    latestSelect [("2023-01-01", "a.jpg"), ("2023-01-02", "b.jpg")] (some "1") :=
  c10_latest_old_new_same_slice _ (some "1") (Or.inr ⟨"1", rfl, by decide⟩)

/-! ## C8: `/latest` validates `amount` before filesystem access -/

/-- C8: a present `amount` that the number validator rejects (non-numeric
or negative strings are rejected, since a negative literal starts with
`-`) makes the `/latest` route fail with the `ValidationError` response
before any call into the photo manager (zero filesystem accesses); an
accepted non-negative integer proceeds to exactly one access. -/
theorem c8_latest_amount_validation (scan : Scan) (s : String) :
    (validNumber s = false → latestEndpoint scan (some s) = (HResp.notFound, 0)) ∧
    (validNumber s = true → (latestEndpoint scan (some s)).2 = 1) ∧
    validNumber "abc" = false ∧ validNumber "-1" = false ∧ validNumber "12" = true := by
  refine ⟨?_, ?_, by decide, by decide, by decide⟩
  · intro h
    unfold latestEndpoint
    dsimp only
    rw [h]
    rfl
  · intro h
    unfold latestEndpoint
    dsimp only
    rw [h]
    rfl

/-- Witness for C8: a negative amount is rejected with 404 and no
filesystem access; a numeric amount proceeds. -/
theorem c8_witness :
    latestEndpoint [] (some "-1") = (HResp.notFound, 0) ∧
    (latestEndpoint [] (some "12")).2 = 1 :=
  ⟨(c8_latest_amount_validation [] "-1").1 (by decide),
   (c8_latest_amount_validation [] "12").2.1 (by decide)⟩

/-! ## C9: `/latest` returns `min(amount, total)` most recent photos -/

/-- C9: with `amount` omitted the `/latest` response is the first 3 photos
of the reverse-chronological list (the 3 most recent), and in general a
validated amount `s` of value `n` yields the first `n`, whose length is
`min n total`; an amount at least the collection size returns the whole
collection. -/
theorem c9_latest_amount_clamped (scan : Scan) (s : String) (n : Nat)
    (hs : validNumber s = true) (hn : jsParseInt s = n) :
    (latestEndpoint scan none).1 =
      .rendered (.json ((getPictures scan).take 3)) ∧
    ((getPictures scan).take 3).length = min 3 (getPictures scan).length ∧
    (latestEndpoint scan (some s)).1 =
      .rendered (.json ((getPictures scan).take n)) ∧
    ((getPictures scan).take n).length = min n (getPictures scan).length ∧
    ((getPictures scan).length ≤ n →
      (getPictures scan).take n = getPictures scan) := by
  refine ⟨?_, List.length_take _ _, ?_, List.length_take _ _, ?_⟩
  · unfold latestEndpoint latestSelect
    dsimp only
    rw [jsParseInt_default]
  · unfold latestEndpoint latestSelect
    dsimp only
    rw [hs, hn]
    rfl
  · intro hle
    exact List.take_of_length_le hle

/-- Witness for C9: a two-photo catalog, amount `5` larger than the
collection. -/
theorem c9_witness :
    (latestEndpoint [("2023-01-01", ["a.jpg", "b.jpg"])] none).1 =
      .rendered (.json ((getPictures [("2023-01-01", ["a.jpg", "b.jpg"])]).take 3)) ∧
    ((getPictures [("2023-01-01", ["a.jpg", "b.jpg"])]).take 3).length =
      min 3 (getPictures [("2023-01-01", ["a.jpg", "b.jpg"])]).length ∧
    (latestEndpoint [("2023-01-01", ["a.jpg", "b.jpg"])] (some "5")).1 =
      .rendered (.json ((getPictures [("2023-01-01", ["a.jpg", "b.jpg"])]).take 5)) ∧
    ((getPictures [("2023-01-01", ["a.jpg", "b.jpg"])]).take 5).length =
      min 5 (getPictures [("2023-01-01", ["a.jpg", "b.jpg"])]).length ∧
    ((getPictures [("2023-01-01", ["a.jpg", "b.jpg"])]).length ≤ 5 →
      (getPictures [("2023-01-01", ["a.jpg", "b.jpg"])]).take 5 =
        getPictures [("2023-01-01", ["a.jpg", "b.jpg"])]) :=
  c9_latest_amount_clamped _ "5" 5 (by decide) (by decide)

/-! ## C4: thumbnail failure classification -/

/-- C4: on a well-formed key with no cached thumbnail, a missing or
unreadable original makes the thumbnail endpoint respond 404 not-found
(the route `.catch` matches the `Unable to open file` message), while an
undecodable original propagates the `ThumbnailError` to the middleware and
yields the 500 generation-failure response. -/
theorem c4_thumbnail_failure_classes (fs : String → String → FileState)
    (d f : String)
    (hd : validDateFolderName d = true) (hf : validPhotoFilename f = true) :
    (fs d f = .missing ∨ fs d f = .unreadable →
      thumbEndpoint none fs d f = (HResp.notFound, 1)) ∧
    (fs d f = .undecodable →
      thumbEndpoint none fs d f =
        (HResp.serverError "Failed to generate thumbnail - not an image file?", 1)) := by
  constructor
  · intro hfs
    have hthumb : thumbnailer none fs d f =
        .error (.thumbnailError ("Unable to open file: " ++ d ++ "/" ++ f)) := by
      rcases hfs with hfs | hfs <;> · unfold thumbnailer; rw [hfs]
    unfold thumbEndpoint thumbRoute
    rw [hd, hf]
    rw [if_pos rfl, if_pos rfl, hthumb]
    dsimp only [thumbCatch, JsError.message]
    rw [if_pos (unable_match d f)]
  · intro hfs
    have hthumb : thumbnailer none fs d f =
        .error (.thumbnailError "No decode delegate for this image format") := by
      unfold thumbnailer; rw [hfs]
    unfold thumbEndpoint thumbRoute
    rw [hd, hf]
    rw [if_pos rfl, if_pos rfl, hthumb]
    dsimp only [thumbCatch, JsError.message]
    rw [if_neg (by decide : ¬(containsChars "Unable to open file".data "No decode delegate for this image format".data = true))]
    rfl

/-- Witness for C4: a key whose original is missing gives 404; one whose
original is undecodable gives the 500 body. -/
theorem c4_witness :
    thumbEndpoint none (fun _ _ => FileState.missing) "2023-01-01" "a.jpg" =
      (HResp.notFound, 1) ∧
    thumbEndpoint none (fun _ _ => FileState.undecodable) "2023-01-01" "a.jpg" =
      (HResp.serverError "Failed to generate thumbnail - not an image file?", 1) :=
  ⟨(c4_thumbnail_failure_classes (fun _ _ => .missing) "2023-01-01" "a.jpg"
      (by decide) (by decide)).1 (Or.inl rfl),
   (c4_thumbnail_failure_classes (fun _ _ => .undecodable) "2023-01-01" "a.jpg"
      (by decide) (by decide)).2 rfl⟩

/-! ## C5: validation precedes filesystem and cache access -/

/-- C5: on the single-photo and thumbnail endpoints, a malformed date key
or filename (including the path-traversal `../secret`, which the filename
validator rejects) is rejected with zero accesses to the photo manager,
the thumbnail cache, and the filesystem. -/
theorem c5_validation_before_access (scan : Scan)
    (cache : Option (List Nat)) (fs : String → String → FileState)
    (d f : String)
    (h : validDateFolderName d = false ∨ validPhotoFilename f = false) :
    (viewEndpoint scan d f).2 = 0 ∧
    (thumbEndpoint cache fs d f).2 = 0 ∧
    validPhotoFilename "../secret" = false := by
  refine ⟨?_, ?_, by decide⟩
  · unfold viewEndpoint
    rcases h with h | h
    · rw [h]
      rfl
    · by_cases hd : validDateFolderName d
      · rw [if_pos hd, h]
        rfl
      · rw [if_neg hd]
  · unfold thumbEndpoint thumbRoute
    rcases h with h | h
    · rw [h]
      rfl
    · by_cases hd : validDateFolderName d
      · rw [if_pos hd, h]
        rfl
      · rw [if_neg hd]

/-- Witness for C5: a request for `../secret` under a well-formed date
touches neither the catalog nor the thumbnail store. -/
theorem c5_witness :
    (viewEndpoint [] "2023-01-01" "../secret").2 = 0 ∧
    (thumbEndpoint none (fun _ _ => FileState.missing) "2023-01-01" "../secret").2 = 0 ∧
    validPhotoFilename "../secret" = false :=
  c5_validation_before_access [] none (fun _ _ => .missing) "2023-01-01" "../secret"
    (Or.inr (by decide))

/-! ## C6: `ValidationError` is always a 404, never a 500 -/

/-- C6: the error middleware maps `ValidationError` to the 404 response
(and the thumbnail route's `.catch` rethrows it there), so every request
that raises one — malformed date key or filename on the view or thumbnail
endpoints, malformed numeric parameter on the page or latest endpoints —
receives 404 not-found, never a server-error response. -/
theorem c6_validation_to_not_found :
    middleware .validationError = HResp.notFound ∧
    thumbCatch (.error .validationError) = HResp.notFound ∧
    (∀ (scan : Scan) (d f : String),
      validDateFolderName d = false ∨ validPhotoFilename f = false →
      (viewEndpoint scan d f).1 = HResp.notFound ∧
      ∀ (cache : Option (List Nat)) (fs : String → String → FileState),
        (thumbEndpoint cache fs d f).1 = HResp.notFound) ∧
    (∀ (th : Nat) (scan : Scan) (s : String), validNumber s = false →
      (pageEndpoint th scan (some s)).1 = HResp.notFound ∧
      (latestEndpoint scan (some s)).1 = HResp.notFound) := by
  refine ⟨rfl, by decide, ?_, ?_⟩
  · intro scan d f h
    constructor
    · unfold viewEndpoint
      rcases h with h | h
      · rw [h]
        rfl
      · by_cases hd : validDateFolderName d
        · rw [if_pos hd, h]
          rfl
        · rw [if_neg hd]
          rfl
    · intro cache fs
      unfold thumbEndpoint thumbRoute
      rcases h with h | h
      · rw [h]
        exact (by decide : thumbCatch (.error .validationError) = HResp.notFound)
      · by_cases hd : validDateFolderName d
        · rw [if_pos hd, h]
          exact (by decide : thumbCatch (.error .validationError) = HResp.notFound)
        · rw [if_neg hd]
          exact (by decide : thumbCatch (.error .validationError) = HResp.notFound)
  · intro th scan s h
    constructor
    · unfold pageEndpoint
      dsimp only
      rw [h]
      rfl
    · unfold latestEndpoint
      dsimp only
      rw [h]
      rfl

/-- Witness for C6: a malformed date key, a traversal filename, and a
non-numeric page/amount all map to 404 on their endpoints. -/
theorem c6_witness :
    (viewEndpoint [] "not-a-date!" "a.jpg").1 = HResp.notFound ∧
    (thumbEndpoint none (fun _ _ => FileState.missing) "2023-01-01" "../secret").1 =
      HResp.notFound ∧
    (pageEndpoint 1 [] (some "x")).1 = HResp.notFound ∧
    (latestEndpoint [] (some "x")).1 = HResp.notFound :=
  ⟨(c6_validation_to_not_found.2.2.1 [] "not-a-date!" "a.jpg" (Or.inl (by decide))).1,
   (c6_validation_to_not_found.2.2.1 [] "2023-01-01" "../secret"
      (Or.inr (by decide))).2 none (fun _ _ => .missing),
   (c6_validation_to_not_found.2.2.2 1 [] "x" (by decide)).1,
   (c6_validation_to_not_found.2.2.2 1 [] "x" (by decide)).2⟩

/-! ## C7: page range handling -/

/-- C7: an omitted page parameter yields the same response as requesting
page `1`; a validated page number `p` outside `[1, totalPages]` yields the
404 response (not a server error or report), and one inside renders that
page. -/
theorem c7_page_range (th : Nat) (scan : Scan) (s : String) (p : Nat)
    (hs : validNumber s = true) (hp : jsParseInt s = p) :
    pageEndpoint th scan none = pageEndpoint th scan (some "1") ∧
    (p < 1 ∨ (getPaginatedDatesWithPictures th scan).length < p →
      pageEndpoint th scan (some s) = (HResp.notFound, 1)) ∧
    (1 ≤ p ∧ p ≤ (getPaginatedDatesWithPictures th scan).length →
      pageEndpoint th scan (some s) =
        (HResp.rendered (.page
            (((getPaginatedDatesWithPictures th scan).get? (p - 1)).getD [])
            p (getPaginatedDatesWithPictures th scan).length), 1)) := by
  have hone : jsParseInt "1" = 1 := by decide
  refine ⟨?_, ?_, ?_⟩
  · unfold pageEndpoint
    dsimp only
    rw [(by decide : validNumber "1" = true), if_pos rfl, hone]
  · intro hrange
    unfold pageEndpoint
    dsimp only
    rw [hs, if_pos rfl, hp]
    unfold pageBody
    rw [if_pos ?_]
    dsimp only
    omega
  · intro hrange
    unfold pageEndpoint
    dsimp only
    rw [hs, if_pos rfl, hp]
    unfold pageBody
    rw [if_neg ?_]
    · have htonat : ((p : Int) - 1).toNat = p - 1 := by omega
      rw [htonat]
    · dsimp only
      omega

/-- Witness for C7: a one-date catalog at page size 1 has one page; page 2
is 404, page 1 renders, and the omitted parameter equals page 1. -/
theorem c7_witness :
    pageEndpoint 1 [("2023-01-01", ["a.jpg"])] none =
      pageEndpoint 1 [("2023-01-01", ["a.jpg"])] (some "1") ∧
    (2 < 1 ∨ (getPaginatedDatesWithPictures 1 [("2023-01-01", ["a.jpg"])]).length < 2 →
      pageEndpoint 1 [("2023-01-01", ["a.jpg"])] (some "2") = (HResp.notFound, 1)) ∧
    (1 ≤ 2 ∧ 2 ≤ (getPaginatedDatesWithPictures 1 [("2023-01-01", ["a.jpg"])]).length →
      pageEndpoint 1 [("2023-01-01", ["a.jpg"])] (some "2") =
        (HResp.rendered (.page
            (((getPaginatedDatesWithPictures 1 [("2023-01-01", ["a.jpg"])]).get? (2 - 1)).getD [])
            2 (getPaginatedDatesWithPictures 1 [("2023-01-01", ["a.jpg"])]).length), 1)) :=
  c7_page_range 1 [("2023-01-01", ["a.jpg"])] "2" 2 (by decide) (by decide)

/-! ## C2: pagination structure -/

lemma chunkFuel_flatten {α : Type} (n : Nat) (hn : 0 < n) :
    ∀ (fuel : Nat) (l : List α), l.length ≤ fuel →
      (chunkFuel fuel n l).flatten = l := by
  intro fuel
  induction fuel with
  | zero =>
      intro l hl
      have hnil : l = [] := List.length_eq_zero.mp (Nat.le_zero.mp hl)
      subst hnil
      rfl
  | succ fuel ih =>
      intro l hl
      cases l with
      | nil => rfl
      | cons x xs =>
          show ((x :: xs).take n :: chunkFuel fuel n ((x :: xs).drop n)).flatten = x :: xs
          rw [List.flatten_cons, ih ((x :: xs).drop n) ?_, List.take_append_drop]
          rw [List.length_drop]
          simp only [List.length_cons] at hl ⊢
          omega

lemma chunkPages_flatten {α : Type} {n : Nat} (hn : 0 < n) (l : List α) :
    (chunkPages n l).flatten = l :=
  chunkFuel_flatten n hn l.length l (le_refl _)

/-- C2: for a positive page size and a scan with distinct folder names, the
pages of `getPaginatedDatesWithPictures` concatenate (in page order) to
exactly the full filtered, ordered date list; the concatenation — hence
every page — is strictly reverse-chronologically ordered; and no date
folder with zero photos appears in any page. -/
theorem c2_pagination (scan : Scan) (th : Nat) (hth : 0 < th)
    (hnodup : (scan.map Prod.fst).Nodup) :
    (getPaginatedDatesWithPictures th scan).flatten = datesWithPictures scan ∧
    ((getPaginatedDatesWithPictures th scan).flatten.Pairwise
      (fun a b => strLt b.1 a.1 = true)) ∧
    (∀ page ∈ getPaginatedDatesWithPictures th scan,
      page.Pairwise (fun a b => strLt b.1 a.1 = true)) ∧
    (∀ page ∈ getPaginatedDatesWithPictures th scan, ∀ e ∈ page, e.2 ≠ []) := by
  have hflat : (getPaginatedDatesWithPictures th scan).flatten = datesWithPictures scan := by
    unfold getPaginatedDatesWithPictures
    exact chunkPages_flatten hth _
  have hsorted : (datesWithPictures scan).Pairwise dateAfter := by
    unfold datesWithPictures
    exact List.sorted_insertionSort dateAfter _
  have hperm : List.Perm
      ((scan.filter (fun e => !e.2.isEmpty)).insertionSort dateAfter)
      (scan.filter (fun e => !e.2.isEmpty)) :=
    List.perm_insertionSort _ _
  have hnodupKeys : ((datesWithPictures scan).map Prod.fst).Nodup := by
    unfold datesWithPictures
    have hsub : ((scan.filter (fun e => !e.2.isEmpty)).map Prod.fst).Sublist
        (scan.map Prod.fst) := (List.filter_sublist _).map _
    exact ((hperm.map Prod.fst).nodup_iff).mpr (hnodup.sublist hsub)
  have hpairNe : (datesWithPictures scan).Pairwise (fun a b => a.1 ≠ b.1) :=
    List.pairwise_map.mp hnodupKeys
  have hstrict : (datesWithPictures scan).Pairwise (fun a b => strLt b.1 a.1 = true) :=
    (hsorted.and hpairNe).imp (fun h => strLt_of_le_of_ne h.1 (Ne.symm h.2))
  have hflatPair : (getPaginatedDatesWithPictures th scan).flatten.Pairwise
      (fun a b => strLt b.1 a.1 = true) := by
    rw [hflat]
    exact hstrict
  refine ⟨hflat, hflatPair, ?_, ?_⟩
  · exact fun page hpage => (List.pairwise_flatten.mp hflatPair).1 page hpage
  · intro page hpage e he
    have hmem : e ∈ (getPaginatedDatesWithPictures th scan).flatten :=
      List.mem_flatten.mpr ⟨page, hpage, he⟩
    rw [hflat] at hmem
    unfold datesWithPictures at hmem
    have hfil : e ∈ scan.filter (fun e => !e.2.isEmpty) := hperm.subset hmem
    have hbool : (!e.2.isEmpty) = true := (List.mem_filter.mp hfil).2
    intro hcontra
    rw [hcontra] at hbool
    simp at hbool

/-- Witness for C2: the spec's example catalog — `2023-01-01` (2 photos),
`2023-01-02` (0 photos), `2023-01-03` (1 photo) — at page size 1. -/
theorem c2_witness :
    (getPaginatedDatesWithPictures 1
        [("2023-01-01", ["a.jpg", "b.jpg"]), ("2023-01-02", []),
         ("2023-01-03", ["c.jpg"])]).flatten =
      datesWithPictures
        [("2023-01-01", ["a.jpg", "b.jpg"]), ("2023-01-02", []),
         ("2023-01-03", ["c.jpg"])] ∧
    ((getPaginatedDatesWithPictures 1
        [("2023-01-01", ["a.jpg", "b.jpg"]), ("2023-01-02", []),
         ("2023-01-03", ["c.jpg"])]).flatten.Pairwise (fun a b => strLt b.1 a.1 = true)) ∧
    (∀ page ∈ getPaginatedDatesWithPictures 1
        [("2023-01-01", ["a.jpg", "b.jpg"]), ("2023-01-02", []),
         ("2023-01-03", ["c.jpg"])],
      page.Pairwise (fun a b => strLt b.1 a.1 = true)) ∧
    (∀ page ∈ getPaginatedDatesWithPictures 1
        [("2023-01-01", ["a.jpg", "b.jpg"]), ("2023-01-02", []),
         ("2023-01-03", ["c.jpg"])], ∀ e ∈ page, e.2 ≠ []) :=
  c2_pagination _ 1 (by decide) (by decide)

/-- The spec's pagination example, evaluated: two pages; page 1 holds
`2023-01-03`, page 2 holds `2023-01-01`, and `2023-01-02` (empty) appears
nowhere. -/
lemma pagination_example :
    getPaginatedDatesWithPictures 1
        [("2023-01-01", ["a.jpg", "b.jpg"]), ("2023-01-02", []),
         ("2023-01-03", ["c.jpg"])] =
      [[("2023-01-03", ["c.jpg"])], [("2023-01-01", ["a.jpg", "b.jpg"])]] := by
  decide

/-! ## C3: `getPicture` neighbours -/

lemma findIdx?_beq_none {α : Type} [BEq α] [LawfulBEq α] (a : α) :
    ∀ l : List α, a ∉ l → l.findIdx? (fun p => p == a) = none := by
  intro l
  induction l with
  | nil => intro _; rfl
  | cons x xs ih =>
      intro hna
      have hx : (x == a) = false :=
        beq_eq_false_iff_ne.mpr (fun h => hna (h ▸ List.mem_cons_self x xs))
      have hna' : a ∉ xs := fun h => hna (List.mem_cons_of_mem x h)
      simp [List.findIdx?_cons, hx, List.findIdx?_succ, ih hna']

lemma findIdx?_beq_split {α : Type} [BEq α] [LawfulBEq α] (a : α) :
    ∀ (xs ys : List α), a ∉ xs →
      (xs ++ a :: ys).findIdx? (fun p => p == a) = some xs.length := by
  intro xs
  induction xs with
  | nil => intro ys _; simp [List.findIdx?_cons]
  | cons x xs ih =>
      intro ys hna
      have hx : (x == a) = false :=
        beq_eq_false_iff_ne.mpr (fun h => hna (h ▸ List.mem_cons_self x xs))
      have hna' : a ∉ xs := fun h => hna (List.mem_cons_of_mem x h)
      rw [List.cons_append]
      simp [List.findIdx?_cons, hx, List.findIdx?_succ, ih ys hna']

/-- C3: on a well-formed key with a duplicate-free catalog, `getPicture`
returns absent when no such photo exists — and the single-photo endpoint
then responds 404 rather than erroring — and when the photo exists at
position `xs ++ photo :: ys` of the total chronological order, the view has
`previous = xs.getLast?` and `next = ys.head?` (each absent at the
respective boundary of the whole collection), and the endpoint renders
exactly that view. -/
theorem c3_photo_neighbors (scan : Scan) (d f : String)
    (hd : validDateFolderName d = true) (hf : validPhotoFilename f = true)
    (hnd : (allPhotos scan).Nodup) :
    ((d, f) ∉ allPhotos scan →
      getPicture scan d f = none ∧
      (viewEndpoint scan d f).1 = HResp.notFound) ∧
    (∀ xs ys, allPhotos scan = xs ++ (d, f) :: ys →
      getPicture scan d f =
        some ⟨(d, f), xs.getLast?, ys.head?⟩ ∧
      (viewEndpoint scan d f).1 =
        .rendered (.photoView ⟨(d, f), xs.getLast?, ys.head?⟩)) := by
  constructor
  · intro hmem
    have hnone : getPicture scan d f = none := by
      unfold getPicture
      dsimp only
      rw [findIdx?_beq_none (d, f) _ hmem]
    refine ⟨hnone, ?_⟩
    unfold viewEndpoint
    rw [hd, hf, if_pos rfl, if_pos rfl, hnone]
  · intro xs ys hsplit
    have hnotxs : (d, f) ∉ xs := by
      rw [hsplit] at hnd
      have hdisj := List.disjoint_of_nodup_append hnd
      exact fun hin => (List.disjoint_left.mp hdisj hin) (List.mem_cons_self _ _)
    have hidx : (allPhotos scan).findIdx? (fun p => p == (d, f)) = some xs.length := by
      rw [hsplit]
      exact findIdx?_beq_split (d, f) xs ys hnotxs
    have hprev : (if xs.length = 0 then none
        else (allPhotos scan).get? (xs.length - 1)) = xs.getLast? := by
      by_cases hxs : xs = []
      · subst hxs; rfl
      · have hpos : 0 < xs.length := List.length_pos.mpr hxs
        rw [if_neg (by omega)]
        rw [hsplit, List.get?_append (by omega)]
        exact (List.getLast?_eq_get? xs).symm
    have hnext : (allPhotos scan).get? (xs.length + 1) = ys.head? := by
      rw [hsplit, List.get?_append_right (by omega)]
      have hone : xs.length + 1 - xs.length = 1 := by omega
      rw [hone, List.get?_cons_succ, List.get?_zero]
    have hview : getPicture scan d f = some ⟨(d, f), xs.getLast?, ys.head?⟩ := by
      unfold getPicture
      dsimp only
      rw [hidx]
      dsimp only
      rw [hprev, hnext]
    refine ⟨hview, ?_⟩
    unfold viewEndpoint
    rw [hd, hf, if_pos rfl, if_pos rfl, hview]

/-- Witness for C3: a two-date catalog whose middle photo (in total
chronological order) has both neighbours; the endpoint renders them. -/
theorem c3_witness :
    getPicture [("2023-01-03", ["c.jpg"]), ("2023-01-01", ["b.jpg", "a.jpg"])]
        "2023-01-01" "b.jpg" =
      some ⟨("2023-01-01", "b.jpg"),
        [("2023-01-01", "a.jpg")].getLast?, [("2023-01-03", "c.jpg")].head?⟩ ∧
    (viewEndpoint [("2023-01-03", ["c.jpg"]), ("2023-01-01", ["b.jpg", "a.jpg"])]
        "2023-01-01" "b.jpg").1 =
      .rendered (.photoView ⟨("2023-01-01", "b.jpg"),
        [("2023-01-01", "a.jpg")].getLast?, [("2023-01-03", "c.jpg")].head?⟩) :=
  (c3_photo_neighbors [("2023-01-03", ["c.jpg"]), ("2023-01-01", ["b.jpg", "a.jpg"])]
      "2023-01-01" "b.jpg" (by decide) (by decide) (by decide)).2
    [("2023-01-01", "a.jpg")] [("2023-01-03", "c.jpg")] (by decide)

end PhotoGallery
